import Mathlib

/-!
Verification development for the PowerPoint Conversion Server (server.js).

The server converts uploaded slide decks to per-slide images and texts via a
chain of fallback strategies, persists the resulting record in MongoDB with a
save-then-verify protocol, and maintains in-memory caches (presentations map,
topic index, per-user view history).

This file embeds the data model and the request handlers of server.js as pure
Lean functions.  External effects (MongoDB calls throwing, page rasterization
failing, file renames failing) are made explicit as boolean or sum-typed
parameters, so that each code path of the JavaScript source corresponds to one
branch of the Lean definition.
-/

namespace PPTServer

/-- Association-list lookup, modelling JavaScript object property read
(obj[k], returning undefined as none). -/
def lookupA {α : Type} : List (String × α) → String → Option α
  | [], _ => none
  | e :: rest, k => if e.1 == k then some e.2 else lookupA rest k

/-- Association-list insert, modelling JavaScript object property write
(obj[k] = v): replaces the existing binding or appends a new one. -/
def insertA {α : Type} : List (String × α) → String → α → List (String × α)
  | [], k, v => [(k, v)]
  | e :: rest, k, v =>
      if e.1 == k then (k, v) :: rest else e :: insertA rest k v

/-- Association-list key removal, modelling the JavaScript delete operator. -/
def eraseA {α : Type} (m : List (String × α)) (k : String) : List (String × α) :=
  m.filter (fun e => e.1 != k)

/-- JavaScript String.prototype.toLowerCase restricted to the ASCII range, as
applied to topic labels and file extensions; implemented over the character
list so that it reduces definitionally. -/
def strLower (s : String) : String :=
  String.mk (s.toList.map Char.toLower)

/-- The presentation record, from the mongoose schema in server.js
(fields id, originalName, title, summary, author, authorId, topics,
slideCount, slides, slideTexts, converted, isPlaceholder, viewCount,
isDeleted).  The Date field converted is modelled as a Nat timestamp. -/
structure Presentation where
  id : String
  originalName : String
  title : String
  summary : String
  author : String
  authorId : String
  topics : List String
  slideCount : Nat
  slides : List String
  slideTexts : List String
  converted : Nat
  isPlaceholder : Bool
  viewCount : Nat
  isDeleted : Bool
deriving Repr, DecidableEq

/-- The MongoDB presentations collection, modelled as a list of documents. -/
def Database := List Presentation

/-- Presentation.findOne with filter by the id field: first matching document. -/
def dbFindOne (db : List Presentation) (pid : String) : Option Presentation :=
  db.find? (fun q => q.id == pid)

/-- Presentation.findOne with filter by id and isDeleted false. -/
def dbFindActive (db : List Presentation) (pid : String) : Option Presentation :=
  db.find? (fun q => q.id == pid && q.isDeleted == false)

/-- Presentation.findOneAndUpdate by id with a full payload: replaces the
first document whose id matches (MongoDB updates a single document). -/
def updateFirst : List Presentation → Presentation → List Presentation
  | [], _ => []
  | q :: rest, p => if q.id == p.id then p :: rest else q :: updateFirst rest p

/-- saveToDatabase (server.js lines 87-126): look the id up first; update the
existing document when present, otherwise insert a new one.  The JavaScript
function can also throw on a MongoDB error; that case is handled by the
saveThrows parameter of commitPresentation below. -/
def saveToDatabase (db : List Presentation) (p : Presentation) : List Presentation :=
  match dbFindOne db p.id with
  | some _ => updateFirst db p
  | none => db ++ [p]

/-- verifyDatabaseSave (server.js lines 129-143): read the document back and
report whether it is present; a MongoDB error during the read (verifyErr)
degrades to false, never throws. -/
def verifyDatabaseSave (verifyErr : Bool) (db : List Presentation) (pid : String) : Bool :=
  if verifyErr then false else (dbFindOne db pid).isSome

/-- Presentation.findOneAndUpdate setting isDeleted to true on the first
document with the given id that is not yet deleted (DELETE handler). -/
def markDeletedFirst : List Presentation → String → List Presentation
  | [], _ => []
  | q :: rest, pid =>
      if q.id == pid && q.isDeleted == false then
        { q with isDeleted := true } :: rest
      else
        q :: markDeletedFirst rest pid

/-- Text content written by createPlaceholderImage (server.js lines 193-203),
the generic placeholder used when LibreOffice is absent. -/
def createPlaceholderImage (slideNumber : Nat) (title : String) : String :=
  "Placeholder for slide " ++ toString slideNumber ++ "\nTitle: " ++ title ++
    "\n\nLibreOffice is not installed on the server,\nso actual slide conversion is not available."

/-- Text content written by createDistinctPlaceholder (server.js lines
206-223): the wording branches on the parity of the slide number. -/
def createDistinctPlaceholder (slideNumber : Nat) (title : String) : String :=
  if slideNumber % 2 == 0 then
    "SLIDE " ++ toString slideNumber ++
      " - EVEN NUMBER\n\nThis is an even-numbered slide placeholder.\nTitle: " ++
      title ++ "\n\nSlide content would appear here."
  else
    "SLIDE " ++ toString slideNumber ++
      " - ODD NUMBER\n\nThis is an odd-numbered slide placeholder.\nTitle: " ++
      title ++ "\n\nDifferent slide content would appear here."

/-- The canonical slide URL pattern used throughout the convert handler. -/
def slideUrl (pid : String) (n : Nat) : String :=
  "/slides/" ++ pid ++ "/slide-" ++ toString n ++ ".jpg"

/-- path.extname semantics from Node: the substring from the last dot of the
name (inclusive); empty when there is no dot or the only dot is leading. -/
def extname (s : String) : String :=
  let cs := s.toList
  let afterDot := cs.reverse.takeWhile (fun c => c != '.')
  if afterDot.length < cs.length then
    let dotIdx := cs.length - 1 - afterDot.length
    if dotIdx == 0 then "" else String.mk (cs.drop dotIdx)
  else ""

/-- Allowed upload extensions (server.js line 60). -/
def allowedExtensions : List String := [".ppt", ".pptx", ".key"]

/-- multer fileFilter (server.js lines 59-68): accept iff the lowercased
extension of the original name is allowed. -/
def fileFilterAccepts (originalname : String) : Bool :=
  allowedExtensions.contains (strLower (extname originalname))

/-- The multer fileSize limit (server.js line 74). -/
def uploadSizeLimit : Nat := 50 * 1024 * 1024

/-- One slide of a conversion result: the URL pushed into the slides array,
the text pushed into slideTexts, whether the slide is a generated placeholder
rather than a rendered image, and (for placeholders) the file content written
to disk by the placeholder generator. -/
structure SlideItem where
  url : String
  text : String
  synthetic : Bool
  fileContent : Option String
deriving Repr, DecidableEq

/-- Outcome of processing one PDF page in the pdftoppm loop (server.js lines
574-620): the pdftoppm call succeeds and the image file appears (rendered,
carrying the pdftotext result: some trimmed text, or none when pdftotext
threw); the call succeeds but the expected file is missing; or the call
itself throws. -/
inductive PageOutcome where
  | rendered (extracted : Option String)
  | fileMissing
  | execFailed
deriving Repr, DecidableEq

/-- The slide text for a successfully rendered PDF page (server.js line 601):
the trimmed pdftotext output when truthy, else the generic text; pdftotext
throwing also yields the generic text (line 603). -/
def pdfPageText (pageNum : Nat) (extracted : Option String) : String :=
  match extracted with
  | some t => if t == "" then "Slide " ++ toString pageNum else t
  | none => "Slide " ++ toString pageNum

/-- One iteration of the pdftoppm per-page loop (server.js lines 574-620). -/
def processPdfPage (pid orig : String) (pageNum : Nat) : PageOutcome → SlideItem
  | .rendered extracted =>
      { url := slideUrl pid pageNum
        text := pdfPageText pageNum extracted
        synthetic := false
        fileContent := none }
  | .fileMissing =>
      { url := slideUrl pid pageNum
        text := "Slide " ++ toString pageNum ++ " (Placeholder)"
        synthetic := true
        fileContent := some (createDistinctPlaceholder pageNum
          ("Page " ++ toString pageNum ++ " of " ++ orig)) }
  | .execFailed =>
      { url := slideUrl pid pageNum
        text := "Slide " ++ toString pageNum ++ " (Error Placeholder)"
        synthetic := true
        fileContent := some (createDistinctPlaceholder pageNum
          ("Page " ++ toString pageNum ++ " of " ++ orig)) }

/-- The pdftoppm per-page loop: for pageNum from 1 to pageCount, process each
page independently; no outcome aborts the loop (server.js lines 574-620). -/
def pdfExtractLoop (pid orig : String) : Nat → List PageOutcome → List SlideItem
  | _, [] => []
  | pageNum, o :: rest =>
      processPdfPage pid orig pageNum o :: pdfExtractLoop pid orig (pageNum + 1) rest

/-- The rename loop of fallbackToJpgConversion (server.js lines 745-761):
each discovered jpg file is renamed to slide-(index+1).jpg; when the rename
throws, the original filename is kept in the URL; the text is generic either
way. -/
def renameLoop (pid : String) : Nat → List (String × Bool) → List SlideItem
  | _, [] => []
  | idx, (origFile, renameOk) :: rest =>
      (if renameOk then
        { url := slideUrl pid (idx + 1)
          text := "Slide " ++ toString (idx + 1)
          synthetic := false
          fileContent := none }
      else
        { url := "/slides/" ++ pid ++ "/" ++ origFile
          text := "Slide " ++ toString (idx + 1)
          synthetic := false
          fileContent := none }) :: renameLoop pid (idx + 1) rest

/-- The single-image padding of fallbackToJpgConversion (server.js lines
765-787): when exactly one jpg was produced, slides 2..23 are filled with
distinct placeholders (the JavaScript loop runs i from 1 to 22 with
slideNumber = i + 1; here i runs 0..21 with slideNumber = i + 2). -/
def jpgPaddingSlides (pid orig : String) : List SlideItem :=
  (List.range 22).map (fun i =>
    let slideNumber := i + 2
    { url := slideUrl pid slideNumber
      text := "Slide " ++ toString slideNumber ++ " (Placeholder)"
      synthetic := true
      fileContent := some (createDistinctPlaceholder slideNumber orig) })

/-- The LibreOffice-absent placeholder branch (server.js lines 432-448):
placeholderCount = 5 generic placeholders via createPlaceholderImage. -/
def placeholderSlides (pid orig : String) : List SlideItem :=
  (List.range 5).map (fun i =>
    { url := slideUrl pid (i + 1)
      text := "Slide " ++ toString (i + 1) ++ " (Placeholder)"
      synthetic := true
      fileContent := some (createPlaceholderImage (i + 1) orig) })

/-- createFallbackPlaceholders (server.js lines 850-867): estimatedSlideCount
= 23 distinct placeholders via createDistinctPlaceholder. -/
def fallbackPlaceholderSlides (pid orig : String) : List SlideItem :=
  (List.range 23).map (fun i =>
    let slideNumber := i + 1
    { url := slideUrl pid slideNumber
      text := "Slide " ++ toString slideNumber ++ " (Placeholder)"
      synthetic := true
      fileContent := some (createDistinctPlaceholder slideNumber orig) })

/-- Which code path of the convert handler produced the slides: the
LibreOffice-absent branch (install failed, 5 generic placeholders); the PDF
paginate-then-rasterize path with one outcome per page; the direct JPG export
fallback with the list of discovered jpg files paired with whether their
rename succeeded; or the terminal createFallbackPlaceholders path. -/
inductive ConvertScenario where
  | libreAbsent
  | pdfPath (outcomes : List PageOutcome)
  | jpgFallback (found : List (String × Bool))
  | fullPlaceholders
deriving Repr, DecidableEq

/-- The slide items produced by each conversion path of the handler. -/
def convertSlides (pid orig : String) : ConvertScenario → List SlideItem
  | .libreAbsent => placeholderSlides pid orig
  | .pdfPath outcomes => pdfExtractLoop pid orig 1 outcomes
  | .jpgFallback found =>
      let renamed := renameLoop pid 0 found
      if found.length == 1 then renamed ++ jpgPaddingSlides pid orig else renamed
  | .fullPlaceholders => fallbackPlaceholderSlides pid orig

/-- The slide-level fields written into the presentation record and echoed in
the HTTP 200 response body.  syntheticFlags records, per slide, whether it was
generated by a placeholder generator; it instruments the code paths and is
not itself a stored field. -/
structure ConversionOutput where
  slides : List String
  slideTexts : List String
  slideCount : Nat
  isPlaceholder : Bool
  syntheticFlags : List Bool
deriving Repr, DecidableEq

/-- The isPlaceholder value assigned by each path: true in the
LibreOffice-absent branch (line 448) and in createFallbackPlaceholders (line
867); false after the PDF loop (line 628) and after the JPG fallback (line
793). -/
def scenarioIsPlaceholder : ConvertScenario → Bool
  | .libreAbsent => true
  | .fullPlaceholders => true
  | .pdfPath _ => false
  | .jpgFallback _ => false

/-- The conversion result of the convert handler on a given path.  slideCount
is assigned as in the source: the constant 5 in the LibreOffice-absent branch,
the constant 23 in createFallbackPlaceholders, and the length of the URL array
on the PDF and JPG paths. -/
def convertOutput (pid orig : String) (s : ConvertScenario) : ConversionOutput :=
  let items := convertSlides pid orig s
  { slides := items.map (fun it => it.url)
    slideTexts := items.map (fun it => it.text)
    slideCount :=
      match s with
      | .libreAbsent => 5
      | .fullPlaceholders => 23
      | .pdfPath _ => (items.map (fun it => it.url)).length
      | .jpgFallback _ => (items.map (fun it => it.url)).length
    isPlaceholder := scenarioIsPlaceholder s
    syntheticFlags := items.map (fun it => it.synthetic) }

/-- Process-wide server state: the MongoDB collection, the in-memory
presentations cache, the topic index, the per-user view history, and the
slide image files on disk. -/
structure ServerState where
  db : List Presentation
  presentations : List (String × Presentation)
  presentationsByTopic : List (String × List String)
  userPresentationHistory : List (String × List String)
  files : List String
deriving Repr, DecidableEq

/-- Adding a presentation id to the topic index for each of its topics,
lowercased, as done after a verified save (server.js lines 648-654 and the
parallel blocks): the id is appended to the list for each topic. -/
def indexAdd (idx : List (String × List String)) (topics : List String)
    (pid : String) : List (String × List String) :=
  topics.foldl (fun acc t =>
    let tl := strLower t
    insertA acc tl (((lookupA acc tl).getD []) ++ [pid])) idx

/-- One step of topic-index removal: for one topic label, filter the id out
of the entry for the lowercased label when that entry exists (DELETE handler,
server.js lines 1332-1337). -/
def indexRemoveStep (pid : String) (acc : List (String × List String))
    (t : String) : List (String × List String) :=
  let tl := strLower t
  match lookupA acc tl with
  | some ids => insertA acc tl (ids.filter (fun i => i != pid))
  | none => acc

/-- Removing a presentation id from the topic index entries of the given
topics, lowercased (DELETE handler, server.js lines 1331-1337). -/
def indexRemove (idx : List (String × List String)) (pid : String)
    (topics : List String) : List (String × List String) :=
  topics.foldl (indexRemoveStep pid) idx

/-- Removing a presentation id from every user history list (server.js lines
1344-1346). -/
def historyRemove (hist : List (String × List String)) (pid : String) :
    List (String × List String) :=
  hist.map (fun e => (e.1, e.2.filter (fun i => i != pid)))

/-- Request metadata gathered at the top of the convert handler (server.js
lines 380-405). -/
structure ConvertMeta where
  pid : String
  originalName : String
  title : String
  summary : String
  author : String
  authorId : String
  topics : List String
  now : Nat
deriving Repr, DecidableEq

/-- The presentation object assembled by the convert handler before saving
(server.js lines 394-405 plus the slide fields set by the chosen path). -/
def buildPresentation (meta : ConvertMeta) (out : ConversionOutput) : Presentation :=
  { id := meta.pid
    originalName := meta.originalName
    title := meta.title
    summary := meta.summary
    author := meta.author
    authorId := meta.authorId
    topics := meta.topics
    slideCount := out.slideCount
    slides := out.slides
    slideTexts := out.slideTexts
    converted := meta.now
    isPlaceholder := out.isPlaceholder
    viewCount := 0
    isDeleted := false }

/-- The save-verify-cache block shared by every branch of the convert handler
(server.js lines 450-496, 633-677, 795-839, 869-915): saveToDatabase (which
may throw: saveThrows), then verifyDatabaseSave (whose read may hit a MongoDB
error: verifyErr); only when the save completed and verification returned true
are the memory cache and topic index updated and a 200 sent; any failure sends
a 500 error body without touching cache or index. -/
def commitPresentation (saveThrows verifyErr : Bool) (st : ServerState)
    (p : Presentation) : Nat × ServerState :=
  if saveThrows then
    (500, st)
  else
    let db2 := saveToDatabase st.db p
    if verifyDatabaseSave verifyErr db2 p.id then
      (200, { st with
        db := db2
        presentations := insertA st.presentations p.id p
        presentationsByTopic := indexAdd st.presentationsByTopic p.topics p.id })
    else
      (500, { st with db := db2 })

/-- The convert handler after upload validation: run the conversion path,
assemble the record, and commit it with the save-verify protocol. -/
def convertHandler (meta : ConvertMeta) (s : ConvertScenario)
    (saveThrows verifyErr : Bool) (st : ServerState) : Nat × ServerState :=
  let out := convertOutput meta.pid meta.originalName s
  let p := buildPresentation meta out
  commitPresentation saveThrows verifyErr st p

/-- An uploaded multipart file as seen by multer. -/
structure UploadedFile where
  originalname : String
  size : Nat
deriving Repr, DecidableEq

/-- Upload validation outcome.  Missing file is detected in the handler and
answered 400 (server.js line 374).  A fileFilter rejection or the fileSize
limit produce a multer error that reaches the final error-handling middleware
(server.js lines 1501-1504), which always answers 500. -/
inductive UploadOutcome where
  | noFile
  | filterRejected
  | sizeRejected
  | accepted
deriving Repr, DecidableEq

/-- The upload gate in front of the convert handler: multer applies fileFilter
to the file entry and enforces the fileSize limit while storing it; the
handler then rejects a request that carried no file. -/
def uploadGate (f : Option UploadedFile) : UploadOutcome :=
  match f with
  | none => .noFile
  | some file =>
      if fileFilterAccepts file.originalname = false then .filterRejected
      else if file.size > uploadSizeLimit then .sizeRejected
      else .accepted

/-- A full convert request: upload validation, then the conversion and commit.
Rejection paths answer without touching any state (400 for a missing file,
500 from the error middleware for a fileFilter or size rejection). -/
def convertRequest (st : ServerState) (f : Option UploadedFile)
    (meta : ConvertMeta) (s : ConvertScenario) (saveThrows verifyErr : Bool) :
    Nat × ServerState :=
  match uploadGate f with
  | .noFile => (400, st)
  | .filterRejected => (500, st)
  | .sizeRejected => (500, st)
  | .accepted => convertHandler meta s saveThrows verifyErr st

/-- The HTTP status computed by the GET presentation handler (server.js lines
925-1008) when the database read succeeds: 200 on a memory-cache hit, else
200 when a non-deleted document exists in the database, else 404. -/
def getPresentationStatus (st : ServerState) (pid : String) : Nat :=
  match lookupA st.presentations pid with
  | some _ => 200
  | none =>
      match dbFindActive st.db pid with
      | some _ => 200
      | none => 404

/-- Result of the DELETE presentation handler. -/
structure DeleteResult where
  status : Nat
  success : Bool
  state : ServerState
deriving Repr, DecidableEq

/-- The DELETE presentation handler (server.js lines 1308-1377).  With a
working database (dbThrows = false): mark the first non-deleted document with
the id as deleted (404 when none), then remove the id from the memory cache
and from the topic index entries of the cached record, then from every user
history, and answer 200 success.  When the database update throws (dbThrows =
true): fall back to a memory-only delete answering 200 success when the id is
cached, else 500; the database is left untouched.  No branch removes slide
files from disk. -/
def deletePresentation (dbThrows : Bool) (st : ServerState) (pid : String) :
    DeleteResult :=
  if dbThrows then
    match lookupA st.presentations pid with
    | some p =>
        { status := 200
          success := true
          state := { st with
            presentationsByTopic := indexRemove st.presentationsByTopic pid p.topics
            presentations := eraseA st.presentations pid
            userPresentationHistory := historyRemove st.userPresentationHistory pid } }
    | none => { status := 500, success := false, state := st }
  else
    match dbFindActive st.db pid with
    | none => { status := 404, success := false, state := st }
    | some _ =>
        let stDb := { st with db := markDeletedFirst st.db pid }
        let stMem :=
          match lookupA stDb.presentations pid with
          | some p =>
              { stDb with
                presentationsByTopic := indexRemove stDb.presentationsByTopic pid p.topics
                presentations := eraseA stDb.presentations pid }
          | none => stDb
        { status := 200
          success := true
          state := { stMem with
            userPresentationHistory := historyRemove stMem.userPresentationHistory pid } }

/-- Count of database documents carrying a given id; the mongoose schema
declares a unique index on id, so well-formed databases have at most one. -/
def countId (db : List Presentation) (pid : String) : Nat :=
  (db.filter (fun q => q.id == pid)).length

/-- Whether every rename in the direct JPG fallback succeeded (vacuously true
on the other paths); under this condition the canonical URL pattern holds for
every slide. -/
def scenarioRenamesOk : ConvertScenario → Bool
  | .jpgFallback found => found.all (fun f => f.2)
  | _ => true

/-- A concrete presentation used as a test fixture. -/
def samplePresentation : Presentation :=
  { id := "p1"
    originalName := "deck.pptx"
    title := "Deck"
    summary := ""
    author := "Ann"
    authorId := "u1"
    topics := ["AI"]
    slideCount := 1
    slides := ["/slides/p1/slide-1.jpg"]
    slideTexts := ["Slide 1"]
    converted := 0
    isPlaceholder := false
    viewCount := 0
    isDeleted := false }

/-- A concrete server state holding samplePresentation everywhere, including
its slide file on disk. -/
def sampleState : ServerState :=
  { db := [samplePresentation]
    presentations := [("p1", samplePresentation)]
    presentationsByTopic := [("ai", ["p1"])]
    userPresentationHistory := [("u2", ["p1"])]
    files := ["/slides/p1/slide-1.jpg"] }

/-- The empty server state. -/
def emptyState : ServerState :=
  { db := [], presentations := [], presentationsByTopic := [],
    userPresentationHistory := [], files := [] }

/-- Concrete request metadata used as a test fixture. -/
def sampleMeta : ConvertMeta :=
  { pid := "p2"
    originalName := "talk.pptx"
    title := "Talk"
    summary := ""
    author := "Bo"
    authorId := "u3"
    topics := ["ML"]
    now := 7 }

/-! ## Helper lemmas about the map and database primitives -/

theorem lookupA_insertA_self {α : Type} (m : List (String × α)) (k : String) (v : α) :
    lookupA (insertA m k v) k = some v := by
  induction m with
  | nil => simp [insertA, lookupA]
  | cons e rest ih =>
      cases h : e.1 == k with
      | true => simp [insertA, h, lookupA]
      | false => simp [insertA, h, lookupA, ih]

theorem lookupA_insertA_ne {α : Type} (m : List (String × α)) (k k2 : String) (v : α)
    (h : k ≠ k2) : lookupA (insertA m k v) k2 = lookupA m k2 := by
  have hb : (k == k2) = false := by
    simp only [beq_eq_false_iff_ne]
    exact h
  induction m with
  | nil => simp [insertA, lookupA, hb]
  | cons e rest ih =>
      cases h2 : e.1 == k with
      | true =>
          have he : e.1 = k := by
            simpa using h2
          have hb2 : (e.1 == k2) = false := by
            simp only [beq_eq_false_iff_ne]
            rw [he]
            exact h
          simp [insertA, h2, lookupA, hb, hb2]
      | false => simp [insertA, h2, lookupA, ih]

theorem lookupA_eraseA_self {α : Type} (m : List (String × α)) (k : String) :
    lookupA (eraseA m k) k = none := by
  induction m with
  | nil => simp [eraseA, lookupA]
  | cons e rest ih =>
      cases h : e.1 != k with
      | false => simpa [eraseA, List.filter_cons, h] using ih
      | true =>
          have h2 : (e.1 == k) = false := by
            simpa [bne] using h
          simpa [eraseA, List.filter_cons, h, lookupA, h2] using ih

theorem lookupA_historyRemove (hist : List (String × List String)) (pid u : String)
    (ids : List String) (h : lookupA (historyRemove hist pid) u = some ids) : pid ∉ ids := by
  induction hist with
  | nil => simp [historyRemove, lookupA] at h
  | cons e rest ih =>
      simp only [historyRemove, List.map_cons, lookupA] at h
      by_cases h2 : (e.1 == u) = true
      · rw [if_pos h2] at h
        obtain rfl : e.2.filter (fun i => i != pid) = ids := by
          simpa using h
        intro hmem
        have := List.of_mem_filter hmem
        simp at this
      · rw [if_neg h2] at h
        exact ih h

theorem dbFindOne_updateFirst (db : List Presentation) (p : Presentation) :
    dbFindOne (updateFirst db p) p.id = (dbFindOne db p.id).map (fun _ => p) := by
  induction db with
  | nil => simp [updateFirst, dbFindOne]
  | cons q rest ih =>
      cases h : q.id == p.id with
      | true => simp [updateFirst, h, dbFindOne, List.find?]
      | false => simpa [updateFirst, h, dbFindOne, List.find?] using ih

theorem dbFindOne_append_none (db : List Presentation) (p : Presentation)
    (h : dbFindOne db p.id = none) : dbFindOne (db ++ [p]) p.id = some p := by
  induction db with
  | nil => simp [dbFindOne, List.find?]
  | cons q rest ih =>
      simp only [dbFindOne, List.find?] at h ⊢
      cases h2 : q.id == p.id with
      | true => simp [h2] at h
      | false =>
          simp only [h2] at h ⊢
          exact ih h

theorem dbFindOne_save_self (db : List Presentation) (p : Presentation) :
    dbFindOne (saveToDatabase db p) p.id = some p := by
  unfold saveToDatabase
  cases h : dbFindOne db p.id with
  | none => exact dbFindOne_append_none db p h
  | some q => rw [dbFindOne_updateFirst, h]; rfl

theorem countId_updateFirst (db : List Presentation) (p : Presentation) :
    countId (updateFirst db p) p.id = countId db p.id := by
  induction db with
  | nil => simp [updateFirst]
  | cons q rest ih =>
      cases h : q.id == p.id with
      | true => simp [updateFirst, h, countId, List.filter]
      | false => simpa [updateFirst, h, countId, List.filter] using ih

theorem countId_zero_of_findOne_none (db : List Presentation) (pid : String)
    (h : dbFindOne db pid = none) : countId db pid = 0 := by
  induction db with
  | nil => rfl
  | cons q rest ih =>
      simp only [dbFindOne, List.find?] at h
      cases h2 : q.id == pid with
      | true => simp [h2] at h
      | false =>
          simp only [h2] at h
          simpa [countId, List.filter, h2] using ih h

theorem countId_pos_of_findOne_some (db : List Presentation) (pid : String)
    (q : Presentation) (h : dbFindOne db pid = some q) : 1 ≤ countId db pid := by
  induction db with
  | nil => simp [dbFindOne, List.find?] at h
  | cons r rest ih =>
      simp only [dbFindOne, List.find?] at h
      cases h2 : r.id == pid with
      | true => simp [countId, List.filter, h2]
      | false =>
          simp only [h2] at h
          simpa [countId, List.filter, h2] using ih h

theorem countId_append (db1 db2 : List Presentation) (pid : String) :
    countId (db1 ++ db2) pid = countId db1 pid + countId db2 pid := by
  simp [countId, List.filter_append]

/-! ## Helper lemmas about the conversion loops -/

theorem pdfExtractLoop_length (pid orig : String) (k : Nat) (os : List PageOutcome) :
    (pdfExtractLoop pid orig k os).length = os.length := by
  induction os generalizing k with
  | nil => rfl
  | cons o rest ih => simp [pdfExtractLoop, ih]

theorem pdfExtractLoop_getElem (pid orig : String) (os : List PageOutcome) (k i : Nat)
    (o : PageOutcome) (h : os[i]? = some o) :
    (pdfExtractLoop pid orig k os)[i]? = some (processPdfPage pid orig (k + i) o) := by
  induction os generalizing k i with
  | nil => simp at h
  | cons o0 rest ih =>
      cases i with
      | zero =>
          simp only [List.getElem?_cons_zero, Option.some_inj] at h
          subst h
          simp [pdfExtractLoop]
      | succ j =>
          simp only [List.getElem?_cons_succ] at h
          have := ih (k + 1) j h
          simpa [pdfExtractLoop, Nat.add_assoc, Nat.add_comm 1 j] using this

theorem processPdfPage_url (pid orig : String) (n : Nat) (o : PageOutcome) :
    (processPdfPage pid orig n o).url = slideUrl pid n := by
  cases o <;> rfl

theorem renameLoop_length (pid : String) (k : Nat) (found : List (String × Bool)) :
    (renameLoop pid k found).length = found.length := by
  induction found generalizing k with
  | nil => rfl
  | cons f rest ih => cases f with | mk name ok => simp [renameLoop, ih]

theorem renameLoop_getElem_ok (pid : String) (found : List (String × Bool)) (k i : Nat)
    (hall : found.all (fun f => f.2) = true) (hi : i < found.length) :
    ((renameLoop pid k found).map (fun it => it.url))[i]? = some (slideUrl pid (k + i + 1)) := by
  induction found generalizing k i with
  | nil => simp at hi
  | cons f rest ih =>
      cases f with
      | mk name ok =>
          simp only [List.all_cons, Bool.and_eq_true] at hall
          obtain ⟨hok, hrest⟩ := hall
          have hok2 : ok = true := hok
          subst hok2
          cases i with
          | zero => simp [renameLoop]
          | succ j =>
              have hj : j < rest.length := by
                simpa using Nat.lt_of_succ_lt_succ hi
              have := ih (k + 1) j hrest hj
              simpa [renameLoop, Nat.add_assoc, Nat.add_comm 1 j] using this

/-! ## Helper lemmas about the delete handler -/

theorem dbFindActive_cons (q : Presentation) (rest : List Presentation) (pid : String) :
    dbFindActive (q :: rest) pid =
      if q.id == pid && q.isDeleted == false then some q else dbFindActive rest pid := by
  cases h : q.id == pid && q.isDeleted == false with
  | true =>
      rw [if_pos rfl]
      exact List.find?_cons_of_pos rest h
  | false =>
      rw [if_neg (by simp)]
      exact List.find?_cons_of_neg rest (by simp only [h]; simp)

theorem markDeletedFirst_cons (q : Presentation) (rest : List Presentation) (pid : String) :
    markDeletedFirst (q :: rest) pid =
      if q.id == pid && q.isDeleted == false then { q with isDeleted := true } :: rest
      else q :: markDeletedFirst rest pid := by
  rfl

theorem countId_cons (q : Presentation) (rest : List Presentation) (pid : String) :
    countId (q :: rest) pid =
      (if q.id == pid then 1 else 0) + countId rest pid := by
  cases h : q.id == pid with
  | true => simp [countId, List.filter_cons, h, Nat.add_comm]
  | false => simp [countId, List.filter_cons, h]

theorem dbFindActive_of_countId_zero (db : List Presentation) (pid : String)
    (h : countId db pid = 0) : dbFindActive db pid = none := by
  induction db with
  | nil => rfl
  | cons q rest ih =>
      rw [countId_cons] at h
      rw [dbFindActive_cons]
      cases h2 : q.id == pid with
      | true => rw [h2] at h; simp at h
      | false =>
          rw [h2] at h
          simp only [Bool.false_and]
          rw [if_neg (by simp)]
          exact ih (by simpa using h)

theorem dbFindActive_markDeletedFirst (db : List Presentation) (pid : String)
    (h : countId db pid ≤ 1) : dbFindActive (markDeletedFirst db pid) pid = none := by
  induction db with
  | nil => rfl
  | cons q rest ih =>
      rw [countId_cons] at h
      rw [markDeletedFirst_cons]
      cases hc : q.id == pid && q.isDeleted == false with
      | true =>
          have hid : (q.id == pid) = true := by
            cases hq : q.id == pid with
            | false => rw [hq] at hc; simp at hc
            | true => rfl
          rw [hid] at h
          simp at h
          have hzero : countId rest pid = 0 := by omega
          rw [if_pos rfl, dbFindActive_cons]
          have hdel : ({ q with isDeleted := true } : Presentation).isDeleted = true := rfl
          rw [if_neg (by simp [hdel])]
          exact dbFindActive_of_countId_zero rest pid hzero
      | false =>
          rw [if_neg (by simp)]
          rw [dbFindActive_cons, hc, if_neg (by simp)]
          apply ih
          cases hq : q.id == pid with
          | true =>
              rw [hq] at h
              simp at h
              omega
          | false =>
              rw [hq] at h
              simp at h
              exact h

theorem markDeletedFirst_mem (db : List Presentation) (pid : String) (p : Presentation)
    (h : dbFindActive db pid = some p) :
    ∃ q, q ∈ markDeletedFirst db pid ∧ q.id = pid ∧ q.isDeleted = true := by
  induction db with
  | nil => simp [dbFindActive, List.find?] at h
  | cons q rest ih =>
      rw [dbFindActive_cons] at h
      rw [markDeletedFirst_cons]
      cases hc : q.id == pid && q.isDeleted == false with
      | true =>
          have hid : (q.id == pid) = true := by
            cases hq : q.id == pid with
            | false => rw [hq] at hc; simp at hc
            | true => rfl
          rw [if_pos rfl]
          exact ⟨{ q with isDeleted := true }, by simp, by simpa using hid, rfl⟩
      | false =>
          rw [hc] at h
          simp only [if_neg (by simp : ¬(false = true))] at h
          rw [if_neg (by simp)]
          obtain ⟨r, hmem, hrid, hrdel⟩ := ih h
          exact ⟨r, by simp [hmem], hrid, hrdel⟩

/-! ## Helper lemmas about the topic index -/

theorem indexRemove_cons (idx : List (String × List String)) (pid t0 : String)
    (rest : List String) :
    indexRemove idx pid (t0 :: rest) = indexRemove (indexRemoveStep pid idx t0) pid rest := rfl

theorem indexRemoveStep_eq_none (pid : String) (acc : List (String × List String))
    (t : String) (hl : lookupA acc (strLower t) = none) :
    indexRemoveStep pid acc t = acc := by
  simp only [indexRemoveStep]
  rw [hl]

theorem indexRemoveStep_eq_some (pid : String) (acc : List (String × List String))
    (t : String) (ids0 : List String) (hl : lookupA acc (strLower t) = some ids0) :
    indexRemoveStep pid acc t = insertA acc (strLower t) (ids0.filter (fun i => i != pid)) := by
  simp only [indexRemoveStep]
  rw [hl]

theorem lookupA_indexRemoveStep_other (pid : String) (acc : List (String × List String))
    (t t2 : String) (hne : t2 ≠ strLower t) :
    lookupA (indexRemoveStep pid acc t) t2 = lookupA acc t2 := by
  cases hl : lookupA acc (strLower t) with
  | none => rw [indexRemoveStep_eq_none pid acc t hl]
  | some ids0 =>
      rw [indexRemoveStep_eq_some pid acc t ids0 hl]
      exact lookupA_insertA_ne _ _ _ _ (fun he => hne he.symm)

theorem lookupA_indexRemoveStep_self (pid : String) (acc : List (String × List String))
    (t : String) (ids : List String)
    (h : lookupA (indexRemoveStep pid acc t) (strLower t) = some ids) : pid ∉ ids := by
  cases hl : lookupA acc (strLower t) with
  | none =>
      rw [indexRemoveStep_eq_none pid acc t hl, hl] at h
      simp at h
  | some ids0 =>
      rw [indexRemoveStep_eq_some pid acc t ids0 hl, lookupA_insertA_self] at h
      obtain rfl : ids0.filter (fun i => i != pid) = ids := by
        simpa using h
      intro hmem
      have := List.of_mem_filter hmem
      simp at this

theorem lookupA_indexRemove_untouched (topics : List String)
    (idx : List (String × List String)) (pid t : String)
    (h : t ∉ topics.map strLower) :
    lookupA (indexRemove idx pid topics) t = lookupA idx t := by
  induction topics generalizing idx with
  | nil => rfl
  | cons t0 rest ih =>
      simp only [List.map_cons, List.mem_cons, not_or] at h
      obtain ⟨h0, hrest⟩ := h
      rw [indexRemove_cons, ih _ hrest]
      exact lookupA_indexRemoveStep_other pid idx t0 t h0

theorem lookupA_indexRemove_removed (topics : List String)
    (idx : List (String × List String)) (pid t : String) (ids : List String)
    (ht : t ∈ topics.map strLower)
    (h : lookupA (indexRemove idx pid topics) t = some ids) : pid ∉ ids := by
  induction topics generalizing idx with
  | nil => simp at ht
  | cons t0 rest ih =>
      by_cases hr : t ∈ rest.map strLower
      · rw [indexRemove_cons] at h
        exact ih _ hr h
      · have ht0 : t = strLower t0 := by
          simp only [List.map_cons, List.mem_cons] at ht
          tauto
        subst ht0
        rw [indexRemove_cons] at h
        rw [lookupA_indexRemove_untouched rest _ pid _ hr] at h
        exact lookupA_indexRemoveStep_self pid idx t0 ids h

/-! ## Claim C1: the save-verify commit protocol of the convert handler -/

/-- C1: for every convert request, the in-memory presentations cache and the
topic index are updated only after saveToDatabase and a subsequent
verifyDatabaseSave both succeed; if either fails, the HTTP response is a 500
error body and the cache and topic index are left unchanged, with no entry
for the new id. -/
theorem convert_commit_protocol (meta : ConvertMeta) (s : ConvertScenario)
    (saveThrows verifyErr : Bool) (st : ServerState)
    (hc : lookupA st.presentations meta.pid = none)
    (hidx : ∀ t ids, lookupA st.presentationsByTopic t = some ids → meta.pid ∉ ids) :
    ((saveThrows = true ∨ verifyErr = true) →
      (convertHandler meta s saveThrows verifyErr st).1 = 500 ∧
      (convertHandler meta s saveThrows verifyErr st).2.presentations = st.presentations ∧
      (convertHandler meta s saveThrows verifyErr st).2.presentationsByTopic =
        st.presentationsByTopic ∧
      lookupA (convertHandler meta s saveThrows verifyErr st).2.presentations meta.pid = none ∧
      (∀ t ids,
        lookupA (convertHandler meta s saveThrows verifyErr st).2.presentationsByTopic t =
          some ids → meta.pid ∉ ids)) ∧
    (saveThrows = false → verifyErr = false →
      (convertHandler meta s saveThrows verifyErr st).1 = 200 ∧
      lookupA (convertHandler meta s saveThrows verifyErr st).2.presentations meta.pid =
        some (buildPresentation meta (convertOutput meta.pid meta.originalName s))) := by
  constructor
  · intro hfail
    cases saveThrows with
    | true =>
        have hcommit : convertHandler meta s true verifyErr st = (500, st) := by
          simp [convertHandler, commitPresentation]
        rw [hcommit]
        exact ⟨rfl, rfl, rfl, hc, hidx⟩
    | false =>
        have hv : verifyErr = true := by
          rcases hfail with h | h
          · exact absurd h (by simp)
          · exact h
        subst hv
        have hcommit : convertHandler meta s false true st =
            (500, { st with db := saveToDatabase st.db (buildPresentation meta (convertOutput meta.pid meta.originalName s)) }) := by
          simp [convertHandler, commitPresentation, verifyDatabaseSave]
        rw [hcommit]
        exact ⟨rfl, rfl, rfl, hc, hidx⟩
  · intro hs hv
    subst hs
    subst hv
    have hverify : verifyDatabaseSave false
        (saveToDatabase st.db
          (buildPresentation meta (convertOutput meta.pid meta.originalName s)))
        (buildPresentation meta (convertOutput meta.pid meta.originalName s)).id = true := by
      unfold verifyDatabaseSave
      rw [if_neg (by simp), dbFindOne_save_self]
      rfl
    constructor
    · simp [convertHandler, commitPresentation, hverify]
    · simp only [convertHandler, commitPresentation]
      rw [if_neg (by simp), if_pos hverify]
      exact lookupA_insertA_self _ _ _

/-- Witness for C1: on a fresh empty state, a convert request whose save and
verify both succeed answers 200 and the cache then holds the record. -/
theorem convert_commit_protocol_witness :
    (convertHandler sampleMeta ConvertScenario.libreAbsent false false emptyState).1 = 200 ∧
    lookupA (convertHandler sampleMeta ConvertScenario.libreAbsent false false
      emptyState).2.presentations "p2" =
      some (buildPresentation sampleMeta
        (convertOutput "p2" "talk.pptx" ConvertScenario.libreAbsent)) :=
  (convert_commit_protocol sampleMeta ConvertScenario.libreAbsent false false emptyState rfl
    (fun _ _ h => Option.noConfusion h)).2 rfl rfl

/-! ## Claim C2: the renderer-absent branch -/

/-- C2 counterexample: when the LibreOffice probe fails and installation
fails, the produced record has slideCount 5, not 23 as the claim states. -/
theorem renderer_absent_count_counterexample :
    (convertOutput "p" "deck.pptx" ConvertScenario.libreAbsent).isPlaceholder = true ∧
    (convertOutput "p" "deck.pptx" ConvertScenario.libreAbsent).slideCount = 5 ∧
    (convertOutput "p" "deck.pptx" ConvertScenario.libreAbsent).slideCount ≠ 23 := by
  decide

/-- C2 amended: when the renderer availability probe returns false and
on-demand installation fails, the record has isPlaceholder true and slideCount
5, with 5 generic placeholder slides written by createPlaceholderImage. -/
theorem renderer_absent_five_generic (pid orig : String) :
    (convertOutput pid orig ConvertScenario.libreAbsent).isPlaceholder = true ∧
    (convertOutput pid orig ConvertScenario.libreAbsent).slideCount = 5 ∧
    (convertOutput pid orig ConvertScenario.libreAbsent).slides =
      [slideUrl pid 1, slideUrl pid 2, slideUrl pid 3, slideUrl pid 4, slideUrl pid 5] ∧
    (convertOutput pid orig ConvertScenario.libreAbsent).slideTexts =
      ["Slide 1 (Placeholder)", "Slide 2 (Placeholder)", "Slide 3 (Placeholder)",
       "Slide 4 (Placeholder)", "Slide 5 (Placeholder)"] ∧
    (convertSlides pid orig ConvertScenario.libreAbsent).map (fun it => it.fileContent) =
      [some (createPlaceholderImage 1 orig), some (createPlaceholderImage 2 orig),
       some (createPlaceholderImage 3 orig), some (createPlaceholderImage 4 orig),
       some (createPlaceholderImage 5 orig)] := by
  exact ⟨rfl, rfl, rfl, rfl, rfl⟩

/-! ## Claim C3: slides, slideTexts and slideCount stay aligned -/

/-- C3: for every successful convert response, on every conversion path, the
slides array, the slideTexts array and slideCount have equal length. -/
theorem slides_texts_count_aligned (pid orig : String) (s : ConvertScenario) :
    (convertOutput pid orig s).slides.length = (convertOutput pid orig s).slideTexts.length ∧
    (convertOutput pid orig s).slideTexts.length = (convertOutput pid orig s).slideCount := by
  cases s with
  | libreAbsent => simp [convertOutput, convertSlides, placeholderSlides]
  | pdfPath outcomes => simp [convertOutput, convertSlides]
  | jpgFallback found => simp [convertOutput, convertSlides]
  | fullPlaceholders => simp [convertOutput, convertSlides, fallbackPlaceholderSlides]

/-! ## Claim C4: the PDF paginate-then-rasterize strategy -/

/-- C4: when the PDF strategy runs with page count N greater than zero, the
resulting slideCount is exactly N; a page whose rasterization command fails is
substituted by a distinct placeholder with slide text
"Slide n (Error Placeholder)" while every other page is still processed. -/
theorem pdf_strategy_page_results (pid orig : String) (outcomes : List PageOutcome)
    (hN : 0 < outcomes.length) :
    (convertOutput pid orig (ConvertScenario.pdfPath outcomes)).slideCount = outcomes.length ∧
    (∀ i, outcomes[i]? = some PageOutcome.execFailed →
      (convertOutput pid orig (ConvertScenario.pdfPath outcomes)).slideTexts[i]? =
        some ("Slide " ++ toString (i + 1) ++ " (Error Placeholder)") ∧
      (convertOutput pid orig (ConvertScenario.pdfPath outcomes)).slides[i]? =
        some (slideUrl pid (i + 1)) ∧
      (convertSlides pid orig (ConvertScenario.pdfPath outcomes))[i]? =
        some { url := slideUrl pid (i + 1)
               text := "Slide " ++ toString (i + 1) ++ " (Error Placeholder)"
               synthetic := true
               fileContent := some (createDistinctPlaceholder (i + 1)
                 ("Page " ++ toString (i + 1) ++ " of " ++ orig)) }) := by
  constructor
  · simp [convertOutput, convertSlides, pdfExtractLoop_length]
  · intro i hi
    have hitem : (pdfExtractLoop pid orig 1 outcomes)[i]? =
        some (processPdfPage pid orig (1 + i) PageOutcome.execFailed) :=
      pdfExtractLoop_getElem pid orig outcomes 1 i _ hi
    rw [Nat.add_comm 1 i] at hitem
    refine ⟨?_, ?_, ?_⟩
    · simp only [convertOutput, convertSlides]
      rw [List.getElem?_map, hitem]
      rfl
    · simp only [convertOutput, convertSlides]
      rw [List.getElem?_map, hitem]
      rfl
    · exact hitem

/-- Witness for C4: a two-page document whose second page rasterization throws
still produces two slides, the second being the error placeholder. -/
theorem pdf_strategy_page_results_witness :
    (convertOutput "p" "f.pptx" (ConvertScenario.pdfPath
      [PageOutcome.rendered (some "Intro"), PageOutcome.execFailed])).slideCount = 2 ∧
    (convertOutput "p" "f.pptx" (ConvertScenario.pdfPath
      [PageOutcome.rendered (some "Intro"), PageOutcome.execFailed])).slideTexts[1]? =
      some "Slide 2 (Error Placeholder)" :=
  ⟨(pdf_strategy_page_results "p" "f.pptx"
      [PageOutcome.rendered (some "Intro"), PageOutcome.execFailed] (by decide)).1,
   ((pdf_strategy_page_results "p" "f.pptx"
      [PageOutcome.rendered (some "Intro"), PageOutcome.execFailed] (by decide)).2 1
      (by decide)).1⟩

/-! ## Claim C5: the isPlaceholder flag -/

/-- C5 counterexample: a PDF-path record whose one page failed contains a
synthetic placeholder slide and yet has isPlaceholder false, refuting the
claimed equivalence between isPlaceholder and the presence of a synthetic
slide. -/
theorem placeholder_flag_counterexample :
    (convertOutput "p" "deck.pptx"
      (ConvertScenario.pdfPath [PageOutcome.execFailed])).isPlaceholder = false ∧
    true ∈ (convertOutput "p" "deck.pptx"
      (ConvertScenario.pdfPath [PageOutcome.execFailed])).syntheticFlags := by
  decide

/-- C5 amended: isPlaceholder is true only on the two full-placeholder
fallback paths, where every slide is synthetic; records produced by the PDF
and direct-JPG paths carry isPlaceholder false even when they contain
synthetic placeholder slides. -/
theorem placeholder_flag_terminal_paths (pid orig : String) (s : ConvertScenario)
    (h : (convertOutput pid orig s).isPlaceholder = true) :
    (s = ConvertScenario.libreAbsent ∨ s = ConvertScenario.fullPlaceholders) ∧
    (convertOutput pid orig s).syntheticFlags.all (fun b => b) = true := by
  cases s with
  | libreAbsent =>
      exact ⟨Or.inl rfl, by simp [convertOutput, convertSlides, placeholderSlides]⟩
  | fullPlaceholders =>
      exact ⟨Or.inr rfl, by simp [convertOutput, convertSlides, fallbackPlaceholderSlides]⟩
  | pdfPath outcomes => simp [convertOutput, scenarioIsPlaceholder] at h
  | jpgFallback found => simp [convertOutput, scenarioIsPlaceholder] at h

/-- Witness for C5 amended: the renderer-absent record is flagged and all its
slides are synthetic. -/
theorem placeholder_flag_terminal_paths_witness :
    (ConvertScenario.libreAbsent = ConvertScenario.libreAbsent ∨
      ConvertScenario.libreAbsent = ConvertScenario.fullPlaceholders) ∧
    (convertOutput "p" "deck.pptx" ConvertScenario.libreAbsent).syntheticFlags.all
      (fun b => b) = true :=
  placeholder_flag_terminal_paths "p" "deck.pptx" ConvertScenario.libreAbsent rfl

/-! ## Claim C6: upload validation -/

/-- C6 counterexample: an upload with a disallowed extension is answered 500
through the error-handling middleware, not 400 as claimed. -/
theorem upload_rejection_counterexample :
    (convertRequest sampleState (some { originalname := "notes.txt", size := 100 })
      sampleMeta ConvertScenario.libreAbsent false false).1 = 500 ∧
    (convertRequest sampleState (some { originalname := "notes.txt", size := 100 })
      sampleMeta ConvertScenario.libreAbsent false false).1 ≠ 400 := by
  decide

/-- C6 amended: a convert request with no file is answered 400 with the state
untouched; a file with a disallowed extension or exceeding the 50 MB limit is
rejected through the error middleware with a 500 answer and the state
untouched (no record, cache or index change in either case). -/
theorem upload_rejection_behavior (st : ServerState) (f : Option UploadedFile)
    (meta : ConvertMeta) (s : ConvertScenario) (saveThrows verifyErr : Bool) :
    (f = none → convertRequest st f meta s saveThrows verifyErr = (400, st)) ∧
    (∀ file, f = some file →
      (fileFilterAccepts file.originalname = false ∨ uploadSizeLimit < file.size) →
      convertRequest st f meta s saveThrows verifyErr = (500, st)) := by
  constructor
  · intro hf
    subst hf
    rfl
  · intro file hf hrej
    subst hf
    rcases hrej with hext | hsize
    · simp [convertRequest, uploadGate, hext]
    · cases hacc : fileFilterAccepts file.originalname with
      | false => simp [convertRequest, uploadGate, hacc]
      | true => simp [convertRequest, uploadGate, hacc, hsize]

/-- Witness for C6 amended: a missing file gives 400; an oversize file gives
500; both leave the state unchanged. -/
theorem upload_rejection_behavior_witness :
    convertRequest sampleState none sampleMeta ConvertScenario.libreAbsent false false =
      (400, sampleState) ∧
    convertRequest sampleState (some { originalname := "big.pptx", size := 52428801 })
      sampleMeta ConvertScenario.libreAbsent false false = (500, sampleState) :=
  ⟨(upload_rejection_behavior sampleState none sampleMeta ConvertScenario.libreAbsent
      false false).1 rfl,
   (upload_rejection_behavior sampleState (some { originalname := "big.pptx", size := 52428801 })
      sampleMeta ConvertScenario.libreAbsent false false).2
      { originalname := "big.pptx", size := 52428801 } rfl (Or.inr (by decide))⟩

/-! ## Claim C7: soft delete -/

/-- C7 counterexample: after a successful DELETE, the next GET answers 404,
but the slide files on disk are left in place, refuting the claim that the
files are removed. -/
theorem soft_delete_counterexample :
    (deletePresentation false sampleState "p1").status = 200 ∧
    getPresentationStatus (deletePresentation false sampleState "p1").state "p1" = 404 ∧
    (deletePresentation false sampleState "p1").state.files = ["/slides/p1/slide-1.jpg"] := by
  decide

/-- C7 amended: for an existing non-deleted presentation id, a successful
DELETE answers 200, a subsequent GET answers 404, the database row still
exists with isDeleted true, and the slide files on disk are left unchanged
(not removed). -/
theorem soft_delete_behavior (st : ServerState) (pid : String) (p : Presentation)
    (hactive : dbFindActive st.db pid = some p)
    (huniq : countId st.db pid ≤ 1) :
    (deletePresentation false st pid).status = 200 ∧
    getPresentationStatus (deletePresentation false st pid).state pid = 404 ∧
    (∃ q, q ∈ (deletePresentation false st pid).state.db ∧ q.id = pid ∧
      q.isDeleted = true) ∧
    (deletePresentation false st pid).state.files = st.files := by
  simp only [deletePresentation]
  rw [if_neg (by simp), hactive]
  cases hcache : lookupA st.presentations pid with
  | some pc =>
      refine ⟨rfl, ?_, ?_, rfl⟩
      · simp [getPresentationStatus, lookupA_eraseA_self,
          dbFindActive_markDeletedFirst st.db pid huniq]
      · simpa using markDeletedFirst_mem st.db pid p hactive
  | none =>
      refine ⟨rfl, ?_, ?_, rfl⟩
      · simp [getPresentationStatus, hcache,
          dbFindActive_markDeletedFirst st.db pid huniq]
      · simpa using markDeletedFirst_mem st.db pid p hactive

/-- Witness for C7 amended: deleting the sample presentation. -/
theorem soft_delete_behavior_witness :
    (deletePresentation false sampleState "p1").status = 200 ∧
    getPresentationStatus (deletePresentation false sampleState "p1").state "p1" = 404 ∧
    (∃ q, q ∈ (deletePresentation false sampleState "p1").state.db ∧ q.id = "p1" ∧
      q.isDeleted = true) ∧
    (deletePresentation false sampleState "p1").state.files = sampleState.files :=
  soft_delete_behavior sampleState "p1" samplePresentation (by decide) (by decide)

/-! ## Claim C8: the canonical slide URL pattern -/

/-- C8 counterexample: when a rename fails in the direct-JPG fallback, the
original renderer filename is kept in the slides array, so slides at index 0
is not the canonical "/slides/id/slide-1.jpg" URL. -/
theorem slides_canonical_counterexample :
    (convertOutput "p" "f.pptx"
      (ConvertScenario.jpgFallback [("a.jpg", false), ("b.jpg", true)])).slides[0]? =
      some "/slides/p/a.jpg" ∧
    "/slides/p/a.jpg" ≠ slideUrl "p" 1 := by
  decide

/-- C8 amended: on every conversion path, provided every rename in the
direct-JPG fallback succeeded, slides at index i is exactly the string
"/slides/id/slide-(i+1).jpg"; when a rename fails the original renderer
filename is kept instead. -/
theorem slides_canonical_when_renames_ok (pid orig : String) (s : ConvertScenario)
    (hok : scenarioRenamesOk s = true) (i : Nat)
    (hi : i < (convertOutput pid orig s).slides.length) :
    (convertOutput pid orig s).slides[i]? = some (slideUrl pid (i + 1)) := by
  cases s with
  | libreAbsent =>
      have hi5 : i < 5 := by
        simpa [convertOutput, convertSlides, placeholderSlides] using hi
      simp [convertOutput, convertSlides, placeholderSlides, List.getElem?_map,
        List.getElem?_range, hi5]
  | fullPlaceholders =>
      have hi23 : i < 23 := by
        simpa [convertOutput, convertSlides, fallbackPlaceholderSlides] using hi
      simp [convertOutput, convertSlides, fallbackPlaceholderSlides, List.getElem?_map,
        List.getElem?_range, hi23]
  | pdfPath outcomes =>
      have hlen : i < outcomes.length := by
        simpa [convertOutput, convertSlides, pdfExtractLoop_length] using hi
      have hitem := pdfExtractLoop_getElem pid orig outcomes 1 i _
        (List.getElem?_eq_getElem hlen)
      rw [Nat.add_comm 1 i] at hitem
      simp only [convertOutput, convertSlides]
      rw [List.getElem?_map, hitem]
      simp [processPdfPage_url]
  | jpgFallback found =>
      simp only [scenarioRenamesOk] at hok
      simp only [convertOutput, convertSlides] at hi ⊢
      by_cases h1 : (found.length == 1) = true
      · rw [if_pos h1] at hi ⊢
        have hlen1 : found.length = 1 := by simpa using h1
        rw [List.map_append]
        cases i with
        | zero =>
            rw [List.getElem?_append, if_pos (by simp [renameLoop_length, hlen1])]
            simpa using renameLoop_getElem_ok pid found 0 0 hok (by omega)
        | succ j =>
            have hmlen : (List.map (fun it => it.url) (renameLoop pid 0 found)).length = 1 := by
              simp [renameLoop_length, hlen1]
            rw [List.getElem?_append_right (by omega)]
            have hj : j < 22 := by
              simp only [List.length_append, List.length_map, renameLoop_length, hlen1,
                jpgPaddingSlides, List.length_range] at hi
              omega
            rw [hmlen]
            simp [jpgPaddingSlides, List.getElem?_map, List.getElem?_range, hj]
      · rw [if_neg h1] at hi ⊢
        have hilen : i < found.length := by
          simpa [renameLoop_length] using hi
        simpa using renameLoop_getElem_ok pid found 0 i hok hilen

/-- Witness for C8 amended: a two-image direct-JPG fallback with both renames
succeeding yields canonical URLs. -/
theorem slides_canonical_witness :
    (convertOutput "p" "f.pptx"
      (ConvertScenario.jpgFallback [("x.jpg", true), ("y.jpg", true)])).slides[1]? =
      some (slideUrl "p" 2) :=
  slides_canonical_when_renames_ok "p" "f.pptx"
    (ConvertScenario.jpgFallback [("x.jpg", true), ("y.jpg", true)]) (by decide) 1 (by decide)

/-! ## Claim C9: idempotence of saveToDatabase -/

/-- C9: saving the same payload twice under one id leaves exactly one record
for that id in the store (the second call updates instead of inserting) and
the stored record equals the payload. -/
theorem saveToDatabase_idempotent (db : List Presentation) (p : Presentation)
    (h : countId db p.id ≤ 1) :
    countId (saveToDatabase (saveToDatabase db p) p) p.id = 1 ∧
    dbFindOne (saveToDatabase (saveToDatabase db p) p) p.id = some p := by
  have h1 : dbFindOne (saveToDatabase db p) p.id = some p := dbFindOne_save_self db p
  have h2 : ∀ d, dbFindOne d p.id = some p → saveToDatabase d p = updateFirst d p := by
    intro d hd
    unfold saveToDatabase
    rw [hd]
  constructor
  · cases hf : dbFindOne db p.id with
    | none =>
        have hsave : saveToDatabase db p = db ++ [p] := by
          unfold saveToDatabase
          rw [hf]
        rw [h2 _ h1, countId_updateFirst, hsave, countId_append,
          countId_zero_of_findOne_none db p.id hf]
        simp [countId]
    | some q =>
        have hsave : saveToDatabase db p = updateFirst db p := by
          unfold saveToDatabase
          rw [hf]
        rw [h2 _ h1, countId_updateFirst, hsave, countId_updateFirst]
        have hpos := countId_pos_of_findOne_some db p.id q hf
        omega
  · rw [h2 _ h1, dbFindOne_updateFirst, h1]
    rfl

/-- Witness for C9: saving the sample presentation twice into an empty store
leaves exactly one record equal to the payload. -/
theorem saveToDatabase_idempotent_witness :
    countId (saveToDatabase (saveToDatabase [] samplePresentation) samplePresentation)
      "p1" = 1 ∧
    dbFindOne (saveToDatabase (saveToDatabase [] samplePresentation) samplePresentation)
      "p1" = some samplePresentation :=
  saveToDatabase_idempotent [] samplePresentation (by decide)

/-! ## Claim C10: the DELETE handler when the database update throws -/

/-- C10: when the database update inside DELETE throws and the id is in the
memory cache, the endpoint still answers 200 with success true after deleting
the record only from the memory cache, the topic index entries of its topics,
and every user history, while the durable store is left unchanged. -/
theorem delete_db_error_memory_only (st : ServerState) (pid : String) (p : Presentation)
    (hc : lookupA st.presentations pid = some p) :
    (deletePresentation true st pid).status = 200 ∧
    (deletePresentation true st pid).success = true ∧
    (deletePresentation true st pid).state.db = st.db ∧
    (deletePresentation true st pid).state.files = st.files ∧
    lookupA (deletePresentation true st pid).state.presentations pid = none ∧
    (∀ u ids,
      lookupA (deletePresentation true st pid).state.userPresentationHistory u = some ids →
        pid ∉ ids) ∧
    (∀ t ids,
      lookupA (deletePresentation true st pid).state.presentationsByTopic t = some ids →
        pid ∈ ids → t ∉ p.topics.map strLower) := by
  have hdel : deletePresentation true st pid =
      { status := 200
        success := true
        state := { st with
          presentationsByTopic := indexRemove st.presentationsByTopic pid p.topics
          presentations := eraseA st.presentations pid
          userPresentationHistory := historyRemove st.userPresentationHistory pid } } := by
    simp only [deletePresentation]
    rw [if_pos trivial, hc]
  rw [hdel]
  refine ⟨rfl, rfl, rfl, rfl, lookupA_eraseA_self _ _, ?_, ?_⟩
  · intro u ids h
    exact lookupA_historyRemove _ _ _ _ h
  · intro t ids h hmem ht
    exact absurd hmem
      (lookupA_indexRemove_removed p.topics st.presentationsByTopic pid t ids ht h)

/-- Witness for C10: the sample state with a database error still answers 200
success and keeps the database row untouched. -/
theorem delete_db_error_memory_only_witness :
    (deletePresentation true sampleState "p1").status = 200 ∧
    (deletePresentation true sampleState "p1").success = true ∧
    (deletePresentation true sampleState "p1").state.db = sampleState.db ∧
    lookupA (deletePresentation true sampleState "p1").state.presentations "p1" = none :=
  ⟨(delete_db_error_memory_only sampleState "p1" samplePresentation (by decide)).1,
   (delete_db_error_memory_only sampleState "p1" samplePresentation (by decide)).2.1,
   (delete_db_error_memory_only sampleState "p1" samplePresentation (by decide)).2.2.1,
   (delete_db_error_memory_only sampleState "p1" samplePresentation (by decide)).2.2.2.2.1⟩

end PPTServer
